import Mathlib

/-!
Shallow embedding of the motor-communication core of the aruwlib/taproot
repository: the CAN receive dispatch table (`CanRxHandler`,
`src/mcb-2019-2020-project/src/communication/can/can_rx_handler.cpp`),
the per-motor encoder decoder (`DjiMotorEncoder`,
`src/src/tap/motor/dji_motor_encoder.cpp`), the redundant-encoder fusion
(`FallbackEncoder`, `src/src/tap/motor/fallback_encoder.hpp`), the motor
object (`DjiMotor`, `src/src/tap/motor/dji_motor.cpp`) and the transmit
aggregator (`DjiMotorTxHandler`, `src/src/tap/motor/dji_motor_tx_handler.cpp`).

Machine integers are embedded as `Nat`/`Int` with explicit reductions
modulo `2^w` at the points where the C++ code performs a conversion.
-/

/-- Reduce an integer to the `uint16_t` value it converts to (C++ modular
conversion to an unsigned type). -/
def toUInt16n (x : Int) : Nat := (x % 65536).toNat

/-- Reduce an integer to the `uint8_t` value it converts to. -/
def toUInt8n (x : Int) : Nat := (x % 256).toNat

/-- Reduce an integer to the `uint32_t` value it converts to. -/
def toUInt32n (x : Int) : Nat := (x % 4294967296).toNat

/-- Value of an `int16_t` obtained by converting the integer `x`
(two's-complement truncation, as gcc defines the conversion). -/
def toInt16s (x : Int) : Int :=
  if x % 65536 < 32768 then x % 65536 else x % 65536 - 65536

/-- Value of an `int8_t` obtained by converting the integer `x`. -/
def toInt8s (x : Int) : Int :=
  if x % 256 < 128 then x % 256 else x % 256 - 256

/-- An 8-byte CAN message with an identifier, as in `modm::can::Message`:
`data` lists the payload bytes `data[0] .. data[7]`. -/
structure CanMessage where
  identifier : Nat
  data : List Nat
deriving DecidableEq, Repr

/-- Byte `i` of a CAN message payload (`message.data[i]`). -/
def CanMessage.byte (m : CanMessage) (i : Nat) : Nat := m.data.getD i 0

/-- ENC_RESOLUTION from `dji_motor_encoder.hpp`: dji encoders report values
in 0 .. 8191. -/
def ENC_RESOLUTION : Nat := 8192

/-- State of `DjiMotorEncoder` (fields of the class as used by
`dji_motor_encoder.cpp`): `encoderWrapped`, `encoderHomePosition` are
`uint16_t`, `encoderUnwrapped`, `encoderRevolutions` are `int64_t`,
`shaftRPM` is `int16_t`.  The `MilliTimeout` is abstracted to the one bit
the embedded operations touch: whether it has been stopped (the initial
state) or restarted by a received message. -/
structure DjiMotorEncoder where
  motorInverted : Bool
  encoderWrapped : Nat
  encoderUnwrapped : Int
  encoderRevolutions : Int
  encoderHomePosition : Nat
  shaftRPM : Int
  timeoutStopped : Bool
deriving DecidableEq, Repr

/-- The `DjiMotorEncoder` constructor (`dji_motor_encoder.cpp` lines 28-39):
initializes `encoderUnwrapped` to the starting wrapped value,
`encoderHomePosition` to 0 and stops the disconnect timeout. -/
def DjiMotorEncoder.init (isInverted : Bool) (encoderWrapped : Nat)
    (encoderRevolutions : Int) : DjiMotorEncoder :=
  { motorInverted := isInverted
    encoderWrapped := encoderWrapped % 65536
    encoderUnwrapped := (encoderWrapped % 65536 : Nat)
    encoderRevolutions := encoderRevolutions
    encoderHomePosition := 0
    shaftRPM := 0
    timeoutStopped := true }

/-- `DjiMotorEncoder::updateEncoderValue` (`dji_motor_encoder.cpp` lines
95-108): `enc_dif` is the `int16_t` of `newEncWrapped - encoderWrapped`;
when it falls below `-ENC_RESOLUTION / 2` the accumulator gains an extra
revolution, above `ENC_RESOLUTION / 2` it loses one, and `enc_dif` itself is
always added. -/
def DjiMotorEncoder.updateEncoderValue (e : DjiMotorEncoder)
    (newEncWrapped : Nat) : DjiMotorEncoder :=
  let nw : Nat := newEncWrapped % 65536
  let enc_dif : Int := toInt16s ((nw : Int) - (e.encoderWrapped : Int))
  let u1 : Int :=
    if enc_dif < -((ENC_RESOLUTION : Int) / 2) then
      e.encoderUnwrapped + (ENC_RESOLUTION : Int)
    else if enc_dif > (ENC_RESOLUTION : Int) / 2 then
      e.encoderUnwrapped - (ENC_RESOLUTION : Int)
    else e.encoderUnwrapped
  { e with encoderWrapped := nw, encoderUnwrapped := u1 + enc_dif }

/-- `DjiMotorEncoder::processMessage` (`dji_motor_encoder.cpp` lines 41-58):
restart the disconnect timeout, decode the big-endian rpm and raw encoder
fields, apply inversion, subtract the home position (re-wrapping a negative
difference by `ENC_RESOLUTION`), and run the unwrap step. -/
def DjiMotorEncoder.processMessage (e : DjiMotorEncoder) (m : CanMessage) :
    DjiMotorEncoder :=
  let rpm0 : Int := toInt16s ((m.byte 2) * 256 + (m.byte 3))
  let rpm : Int := if e.motorInverted then -rpm0 else rpm0
  let encoderActual0 : Nat := ((m.byte 0) * 256 + (m.byte 1)) % 65536
  let encoderActual : Nat :=
    if e.motorInverted then toUInt16n ((ENC_RESOLUTION : Int) - 1 - encoderActual0)
    else encoderActual0
  let encoderRelativeToHome : Int :=
    (encoderActual : Int) - (e.encoderHomePosition : Int)
  let arg : Int :=
    if encoderRelativeToHome < 0 then (ENC_RESOLUTION : Int) + encoderRelativeToHome
    else encoderRelativeToHome
  DjiMotorEncoder.updateEncoderValue
    { e with shaftRPM := rpm, timeoutStopped := false }
    (toUInt16n arg)

/-- `DjiMotorEncoder::resetEncoderValue` (`dji_motor_encoder.cpp` lines
70-76): zero the revolutions, fold the current wrapped value into the home
position modulo `ENC_RESOLUTION`, zero the wrapped and unwrapped values. -/
def DjiMotorEncoder.resetEncoderValue (e : DjiMotorEncoder) : DjiMotorEncoder :=
  { e with
    encoderRevolutions := 0
    encoderHomePosition := (e.encoderWrapped + e.encoderHomePosition) % ENC_RESOLUTION
    encoderWrapped := 0
    encoderUnwrapped := 0 }

/-- The raw big-endian encoder field of a feedback message
(`message.data[0] << 8 | message.data[1]` as a `uint16_t`). -/
def rawEncoderField (m : CanMessage) : Nat := ((m.byte 0) * 256 + (m.byte 1)) % 65536

/-- One externally visible mutation of a `DjiMotorEncoder`. -/
inductive EncoderOp where
  | msg (m : CanMessage)
  | reset
deriving DecidableEq, Repr

/-- A feedback message whose encoder field lies in the dji 13-bit range. -/
def EncoderOp.fieldInRange : EncoderOp → Prop
  | .msg m => rawEncoderField m < ENC_RESOLUTION
  | .reset => True

instance : DecidablePred EncoderOp.fieldInRange := by
  intro op
  cases op <;> simp [EncoderOp.fieldInRange] <;> infer_instance

/-- Apply one operation to an encoder state. -/
def DjiMotorEncoder.applyOp (e : DjiMotorEncoder) : EncoderOp → DjiMotorEncoder
  | .msg m => e.processMessage m
  | .reset => e.resetEncoderValue

/-- Apply a sequence of operations, oldest first. -/
def DjiMotorEncoder.applyOps (e : DjiMotorEncoder) (ops : List EncoderOp) :
    DjiMotorEncoder :=
  ops.foldl DjiMotorEncoder.applyOp e

/-- The wrapped reading produced by moving a true displacement `t` from the
wrapped position `w` (claim-side scaffolding for the continuity property). -/
def wrapReading (w : Nat) (t : Int) : Nat := (((w : Int) + t) % 8192).toNat

/-- Feed a sequence of true displacements through the unwrap step, each one
presented as the wrapped reading it produces. -/
def DjiMotorEncoder.applyReadings (e : DjiMotorEncoder) (ts : List Int) :
    DjiMotorEncoder :=
  ts.foldl (fun s t => s.updateEncoderValue (wrapReading s.encoderWrapped t)) e

theorem toInt16s_of_bounds {x : Int} (h1 : -32768 ≤ x) (h2 : x < 32768) :
    toInt16s x = x := by
  unfold toInt16s
  omega

theorem toUInt16n_of_bounds {x : Int} (h1 : 0 ≤ x) (h2 : x < 65536) :
    toUInt16n x = x.toNat := by
  unfold toUInt16n
  omega

/-- The unwrap step always stores the (uint16-reduced) new wrapped value. -/
theorem updateEncoderValue_wrapped (e : DjiMotorEncoder) (nw : Nat) :
    (e.updateEncoderValue nw).encoderWrapped = nw % 65536 := rfl

/-- Effect of one unwrap step on in-range values: the accumulator moves by
the half-range-corrected delta. -/
theorem updateEncoderValue_unwrapped (e : DjiMotorEncoder) (nw : Nat)
    (hw : e.encoderWrapped < 8192) (hnw : nw < 8192) :
    (e.updateEncoderValue nw).encoderUnwrapped =
      e.encoderUnwrapped +
        (if (nw : Int) - (e.encoderWrapped : Int) < -4096 then
          8192 + ((nw : Int) - (e.encoderWrapped : Int))
         else if 4096 < (nw : Int) - (e.encoderWrapped : Int) then
          ((nw : Int) - (e.encoderWrapped : Int)) - 8192
         else (nw : Int) - (e.encoderWrapped : Int)) := by
  have hmod : nw % 65536 = nw := Nat.mod_eq_of_lt (by omega)
  have hd : toInt16s ((nw : Int) - (e.encoderWrapped : Int)) =
      (nw : Int) - (e.encoderWrapped : Int) := by
    apply toInt16s_of_bounds <;> omega
  unfold DjiMotorEncoder.updateEncoderValue
  simp only [hmod, hd, ENC_RESOLUTION]
  norm_num
  split_ifs <;> omega

/-- Fields of the state untouched by the unwrap step. -/
theorem updateEncoderValue_frame (e : DjiMotorEncoder) (nw : Nat) :
    (e.updateEncoderValue nw).encoderHomePosition = e.encoderHomePosition ∧
    (e.updateEncoderValue nw).encoderRevolutions = e.encoderRevolutions ∧
    (e.updateEncoderValue nw).motorInverted = e.motorInverted := by
  unfold DjiMotorEncoder.updateEncoderValue
  exact ⟨rfl, rfl, rfl⟩

/-- The post-inversion encoder value a message decodes to (`encoderActual`
after the `motorInverted` correction in `processMessage`). -/
def actualOf (inverted : Bool) (m : CanMessage) : Nat :=
  if inverted then toUInt16n ((ENC_RESOLUTION : Int) - 1 - (rawEncoderField m : Int))
  else rawEncoderField m

theorem actualOf_lt (inverted : Bool) (m : CanMessage)
    (h : rawEncoderField m < 8192) : actualOf inverted m < 8192 := by
  unfold actualOf toUInt16n ENC_RESOLUTION
  split <;> omega

/-- The `encoderRelativeToHome` value passed into the unwrap step, before the
uint16 parameter conversion. -/
def relHomeArg (a h : Nat) : Int :=
  if (a : Int) - (h : Int) < 0 then (ENC_RESOLUTION : Int) + ((a : Int) - (h : Int))
  else (a : Int) - (h : Int)

/-- `processMessage` factors into a field update followed by the unwrap
step on the home-relative encoder value. -/
theorem processMessage_eq_update (e : DjiMotorEncoder) (m : CanMessage) :
    e.processMessage m =
      DjiMotorEncoder.updateEncoderValue
        { e with
          shaftRPM :=
            if e.motorInverted then -(toInt16s ((m.byte 2) * 256 + (m.byte 3)))
            else toInt16s ((m.byte 2) * 256 + (m.byte 3))
          timeoutStopped := false }
        (toUInt16n (relHomeArg (actualOf e.motorInverted m) e.encoderHomePosition)) := by
  unfold DjiMotorEncoder.processMessage relHomeArg actualOf rawEncoderField
  rfl

theorem relHomeArg_bounds {a h : Nat} (ha : a < 8192) (hh : h < 8192) :
    0 ≤ relHomeArg a h ∧ relHomeArg a h < 8192 := by
  unfold relHomeArg ENC_RESOLUTION
  split <;> omega

/-- The unwrap step preserves the modulo-8192 agreement between the
unwrapped accumulator and the wrapped value. -/
theorem updateEncoderValue_invariant (e : DjiMotorEncoder) (nw : Nat)
    (hw : e.encoderWrapped < 8192) (hnw : nw < 8192)
    (hinv : e.encoderUnwrapped % 8192 = (e.encoderWrapped : Int)) :
    (e.updateEncoderValue nw).encoderUnwrapped % 8192 =
      ((e.updateEncoderValue nw).encoderWrapped : Int) := by
  have h1 := updateEncoderValue_wrapped e nw
  have h2 := updateEncoderValue_unwrapped e nw hw hnw
  rw [h1, Nat.mod_eq_of_lt (by omega), h2]
  split_ifs <;> omega

/-- The state well-formedness carried by every reachable encoder state fed
with in-range feedback: wrapped value and home position are in the encoder
range and the unwrapped accumulator agrees with the wrapped value
modulo 8192. -/
def EncInv (e : DjiMotorEncoder) : Prop :=
  e.encoderWrapped < 8192 ∧ e.encoderHomePosition < 8192 ∧
    e.encoderUnwrapped % 8192 = (e.encoderWrapped : Int)

theorem encInv_init (inverted : Bool) (w0 : Nat) (rev : Int) (hw0 : w0 < 8192) :
    EncInv (DjiMotorEncoder.init inverted w0 rev) := by
  unfold EncInv
  simp only [DjiMotorEncoder.init]
  omega

theorem encInv_reset (e : DjiMotorEncoder) (h : EncInv e) :
    EncInv e.resetEncoderValue := by
  unfold EncInv at *
  simp only [DjiMotorEncoder.resetEncoderValue, ENC_RESOLUTION]
  omega

theorem encInv_processMessage (e : DjiMotorEncoder) (m : CanMessage)
    (h : EncInv e) (hraw : rawEncoderField m < ENC_RESOLUTION) :
    EncInv (e.processMessage m) := by
  obtain ⟨hw, hh, hu⟩ := h
  have ha := actualOf_lt e.motorInverted m hraw
  have harg := relHomeArg_bounds ha hh
  rw [processMessage_eq_update]
  set e1 : DjiMotorEncoder :=
    { e with
      shaftRPM :=
        if e.motorInverted then -(toInt16s ((m.byte 2) * 256 + (m.byte 3)))
        else toInt16s ((m.byte 2) * 256 + (m.byte 3))
      timeoutStopped := false } with he1
  have hw1 : e1.encoderWrapped = e.encoderWrapped := rfl
  have hh1 : e1.encoderHomePosition = e.encoderHomePosition := rfl
  have hu1 : e1.encoderUnwrapped = e.encoderUnwrapped := rfl
  have hnw : toUInt16n (relHomeArg (actualOf e.motorInverted m) e.encoderHomePosition) < 8192 := by
    unfold toUInt16n
    omega
  refine ⟨?_, ?_, ?_⟩
  · rw [updateEncoderValue_wrapped]
    unfold toUInt16n
    omega
  · rw [(updateEncoderValue_frame e1 _).1, hh1]
    exact hh
  · exact updateEncoderValue_invariant e1 _ (by rw [hw1]; exact hw) hnw
      (by rw [hu1, hw1]; exact hu)

theorem encInv_applyOps (e : DjiMotorEncoder) (ops : List EncoderOp)
    (h : EncInv e) (hops : ∀ op ∈ ops, EncoderOp.fieldInRange op) :
    EncInv (e.applyOps ops) := by
  induction ops generalizing e with
  | nil => exact h
  | cons op rest ih =>
    have hop := hops op (List.mem_cons_self op rest)
    have hrest : ∀ op ∈ rest, EncoderOp.fieldInRange op := fun o ho =>
      hops o (List.mem_cons_of_mem op ho)
    cases op with
    | msg m => exact ih (e.processMessage m) (encInv_processMessage e m h hop) hrest
    | reset => exact ih e.resetEncoderValue (encInv_reset e h) hrest

theorem resetEncoderValue_motorInverted (e : DjiMotorEncoder) :
    e.resetEncoderValue.motorInverted = e.motorInverted := rfl

theorem resetEncoderValue_fields (e : DjiMotorEncoder) :
    e.resetEncoderValue.encoderWrapped = 0 ∧
    e.resetEncoderValue.encoderUnwrapped = 0 ∧
    e.resetEncoderValue.encoderRevolutions = 0 ∧
    e.resetEncoderValue.encoderHomePosition =
      (e.encoderWrapped + e.encoderHomePosition) % 8192 :=
  ⟨rfl, rfl, rfl, rfl⟩

theorem processMessage_motorInverted (e : DjiMotorEncoder) (m : CanMessage) :
    (e.processMessage m).motorInverted = e.motorInverted := by
  rw [processMessage_eq_update]
  exact (updateEncoderValue_frame _ _).2.2

theorem processMessage_homePosition (e : DjiMotorEncoder) (m : CanMessage) :
    (e.processMessage m).encoderHomePosition = e.encoderHomePosition := by
  rw [processMessage_eq_update]
  exact (updateEncoderValue_frame _ _).1

theorem processMessage_revolutions (e : DjiMotorEncoder) (m : CanMessage) :
    (e.processMessage m).encoderRevolutions = e.encoderRevolutions := by
  rw [processMessage_eq_update]
  exact (updateEncoderValue_frame _ _).2.1

/-- In-range feedback stores exactly the home-relative encoder value. -/
theorem processMessage_wrapped_of_bounds (e : DjiMotorEncoder) (m : CanMessage)
    (hh : e.encoderHomePosition < 8192) (hraw : rawEncoderField m < 8192) :
    ((e.processMessage m).encoderWrapped : Int) =
      relHomeArg (actualOf e.motorInverted m) e.encoderHomePosition ∧
    (e.processMessage m).encoderWrapped < 8192 := by
  have ha := actualOf_lt e.motorInverted m hraw
  have harg := relHomeArg_bounds ha hh
  rw [processMessage_eq_update, updateEncoderValue_wrapped]
  unfold toUInt16n
  omega

theorem relHomeArg_self (a : Nat) : relHomeArg a a = 0 := by
  unfold relHomeArg
  simp

/-- Exact-displacement step: a true displacement of magnitude below 4096,
presented as the wrapped reading it produces, moves the unwrapped
accumulator by exactly that displacement. -/
theorem updateEncoderValue_exact (e : DjiMotorEncoder) (t : Int)
    (hw : e.encoderWrapped < 8192) (ht1 : -4096 < t) (ht2 : t < 4096) :
    (e.updateEncoderValue (wrapReading e.encoderWrapped t)).encoderUnwrapped =
      e.encoderUnwrapped + t ∧
    wrapReading e.encoderWrapped t < 8192 := by
  have hnn : 0 ≤ ((e.encoderWrapped : Int) + t) % 8192 :=
    Int.emod_nonneg _ (by norm_num)
  have hlt : ((e.encoderWrapped : Int) + t) % 8192 < 8192 :=
    Int.emod_lt_of_pos _ (by norm_num)
  have hcast : ((wrapReading e.encoderWrapped t : Nat) : Int) =
      ((e.encoderWrapped : Int) + t) % 8192 := by
    unfold wrapReading
    omega
  have hr : wrapReading e.encoderWrapped t < 8192 := by omega
  refine ⟨?_, hr⟩
  rw [updateEncoderValue_unwrapped e _ hw hr]
  split_ifs <;> omega

/-- Folding a list of bounded true displacements keeps the modulo-8192
agreement and accumulates exactly their sum. -/
theorem applyReadings_spec (e : DjiMotorEncoder) (ts : List Int)
    (hw : e.encoderWrapped < 8192)
    (hinv : e.encoderUnwrapped % 8192 = (e.encoderWrapped : Int))
    (hts : ∀ t ∈ ts, -4096 < t ∧ t < 4096) :
    (e.applyReadings ts).encoderWrapped < 8192 ∧
    (e.applyReadings ts).encoderUnwrapped % 8192 =
      ((e.applyReadings ts).encoderWrapped : Int) ∧
    (e.applyReadings ts).encoderUnwrapped = e.encoderUnwrapped + ts.sum := by
  induction ts generalizing e with
  | nil => exact ⟨hw, hinv, by simp [DjiMotorEncoder.applyReadings]⟩
  | cons t rest ih =>
    obtain ⟨ht1, ht2⟩ := hts t (List.mem_cons_self t rest)
    have hrest : ∀ x ∈ rest, -4096 < x ∧ x < 4096 := fun x hx =>
      hts x (List.mem_cons_of_mem t hx)
    have hstep := updateEncoderValue_exact e t hw ht1 ht2
    set e1 := e.updateEncoderValue (wrapReading e.encoderWrapped t) with he1
    have hw1 : e1.encoderWrapped < 8192 := by
      rw [he1, updateEncoderValue_wrapped]
      have := hstep.2
      omega
    have hinv1 : e1.encoderUnwrapped % 8192 = (e1.encoderWrapped : Int) := by
      rw [he1]
      exact updateEncoderValue_invariant e _ hw hstep.2 hinv
    have hfold : e.applyReadings (t :: rest) = e1.applyReadings rest := rfl
    rw [hfold]
    obtain ⟨h1, h2, h3⟩ := ih e1 hw1 hinv1 hrest
    refine ⟨h1, h2, ?_⟩
    rw [h3, hstep.1, List.sum_cons]
    ring

/-- C2: the unwrap step of `DjiMotorEncoder.updateEncoderValue` adds exactly
`8192 + d` when the signed delta `d` is below `-4096`, `d - 8192` when it is
above `4096`, and `d` otherwise; consequently, for any sequence of readings
generated by true per-step displacements of magnitude below 4096, each step
moves the unwrapped accumulator by exactly the true displacement (so never
by more than the per-step delta) and the unwrapped value modulo 8192 always
equals the latest wrapped reading. -/
theorem claim_C2_unwrap_step_and_continuity (e : DjiMotorEncoder)
    (hw : e.encoderWrapped < 8192) :
    (∀ nw : Nat, nw < 8192 →
      (e.updateEncoderValue nw).encoderUnwrapped - e.encoderUnwrapped =
        (if (nw : Int) - (e.encoderWrapped : Int) < -4096 then
          8192 + ((nw : Int) - (e.encoderWrapped : Int))
         else if 4096 < (nw : Int) - (e.encoderWrapped : Int) then
          ((nw : Int) - (e.encoderWrapped : Int)) - 8192
         else (nw : Int) - (e.encoderWrapped : Int))) ∧
    (∀ t : Int, -4096 < t → t < 4096 →
      (e.updateEncoderValue (wrapReading e.encoderWrapped t)).encoderUnwrapped =
        e.encoderUnwrapped + t) ∧
    (e.encoderUnwrapped % 8192 = (e.encoderWrapped : Int) →
      ∀ ts : List Int, (∀ t ∈ ts, -4096 < t ∧ t < 4096) →
        (e.applyReadings ts).encoderUnwrapped % 8192 =
          ((e.applyReadings ts).encoderWrapped : Int) ∧
        (e.applyReadings ts).encoderUnwrapped = e.encoderUnwrapped + ts.sum) := by
  refine ⟨?_, ?_, ?_⟩
  · intro nw hnw
    rw [updateEncoderValue_unwrapped e nw hw hnw]
    ring
  · intro t ht1 ht2
    exact (updateEncoderValue_exact e t hw ht1 ht2).1
  · intro hinv ts hts
    exact ⟨(applyReadings_spec e ts hw hinv hts).2.1,
      (applyReadings_spec e ts hw hinv hts).2.2⟩

/-- Witness for C2 at the spec's concrete scenario: wrapped goes 8000 to 50
in one sample, the delta is `-7950 < -4096`, and the accumulator advances
by `8192 - 7950 = 242` counts. -/
theorem claim_C2_witness :
    (DjiMotorEncoder.updateEncoderValue
      (DjiMotorEncoder.init false 8000 0) 50).encoderUnwrapped -
      (DjiMotorEncoder.init false 8000 0).encoderUnwrapped = 242 := by
  have h := (claim_C2_unwrap_step_and_continuity
    (DjiMotorEncoder.init false 8000 0) (by decide)).1 50 (by decide)
  have hb : ((DjiMotorEncoder.init false 8000 0).encoderWrapped : Int) = 8000 := by
    decide
  rw [hb] at h
  norm_num at h
  exact h

/-- C3 counterexample: a default-constructed encoder that receives a single
CAN message whose big-endian encoder field is 9000 (bytes `0x23 0x28`)
violates the claimed invariant: the wrapped field becomes 9000 while the
unwrapped accumulator is congruent to 808 modulo 8192. -/
theorem claim_C3_counterexample :
    ¬ (((DjiMotorEncoder.init false 4096 0).processMessage
        ⟨0x201, [0x23, 0x28, 0, 0, 0, 0, 0, 0]⟩).encoderUnwrapped % 8192 =
       (((DjiMotorEncoder.init false 4096 0).processMessage
        ⟨0x201, [0x23, 0x28, 0, 0, 0, 0, 0, 0]⟩).encoderWrapped : Int)) := by
  decide

/-- C3 (amended): for every state reached from a construction whose starting
wrapped value is in `[0, 8192)` by processMessage calls whose raw encoder
field is in `[0, 8192)` (hardware-conformant feedback) and resetEncoderValue
calls, `encoderUnwrapped mod 8192 = encoderWrapped` holds. -/
theorem claim_C3_invariant_in_range (inverted : Bool) (w0 : Nat) (rev : Int)
    (ops : List EncoderOp) (hw0 : w0 < 8192)
    (hops : ∀ op ∈ ops, EncoderOp.fieldInRange op) :
    ((DjiMotorEncoder.init inverted w0 rev).applyOps ops).encoderUnwrapped % 8192 =
      (((DjiMotorEncoder.init inverted w0 rev).applyOps ops).encoderWrapped : Int) :=
  (encInv_applyOps _ ops (encInv_init inverted w0 rev hw0) hops).2.2

/-- Witness for the amended C3 on a concrete run: construction at 4096, one
in-range message, one reset. -/
theorem claim_C3_witness :
    ((DjiMotorEncoder.init false 4096 0).applyOps
      [EncoderOp.msg ⟨0x201, [0x01, 0x02, 0, 0, 0, 0, 0, 0]⟩,
       EncoderOp.reset]).encoderUnwrapped % 8192 =
      (((DjiMotorEncoder.init false 4096 0).applyOps
        [EncoderOp.msg ⟨0x201, [0x01, 0x02, 0, 0, 0, 0, 0, 0]⟩,
         EncoderOp.reset]).encoderWrapped : Int) :=
  claim_C3_invariant_in_range false 4096 0
    [EncoderOp.msg ⟨0x201, [0x01, 0x02, 0, 0, 0, 0, 0, 0]⟩, EncoderOp.reset]
    (by decide) (by decide)

/-- C7: `resetEncoderValue` re-homes so that the home offset becomes
(previous home + previous wrapped) mod 8192 and zeroes the wrapped value,
the unwrapped accumulator and the revolutions; and after processing a
feedback message, resetting, and processing a message with the same raw
encoder field again, the wrapped value and the revolutions are both 0. -/
theorem claim_C7_reset_rehome_roundtrip (e : DjiMotorEncoder) (m : CanMessage)
    (hh : e.encoderHomePosition < 8192) (hraw : rawEncoderField m < 8192) :
    (e.resetEncoderValue.encoderHomePosition =
        (e.encoderHomePosition + e.encoderWrapped) % 8192 ∧
      e.resetEncoderValue.encoderWrapped = 0 ∧
      e.resetEncoderValue.encoderUnwrapped = 0 ∧
      e.resetEncoderValue.encoderRevolutions = 0) ∧
    ((((e.processMessage m).resetEncoderValue).processMessage m).encoderWrapped = 0 ∧
      (((e.processMessage m).resetEncoderValue).processMessage m).encoderRevolutions = 0) := by
  have ha := actualOf_lt e.motorInverted m hraw
  obtain ⟨hw1, hlt1⟩ := processMessage_wrapped_of_bounds e m hh hraw
  have harg := relHomeArg_bounds ha hh
  set e1 := e.processMessage m with he1
  set e2 := e1.resetEncoderValue with he2
  -- the re-homed offset equals the post-inversion encoder value of `m`
  have hhome2 : e2.encoderHomePosition = actualOf e.motorInverted m := by
    rw [he2, (resetEncoderValue_fields e1).2.2.2,
      processMessage_homePosition e m]
    unfold relHomeArg ENC_RESOLUTION at hw1 harg
    split at hw1 <;> omega
  have hinv2 : e2.motorInverted = e.motorInverted := by
    rw [he2, resetEncoderValue_motorInverted, he1, processMessage_motorInverted]
  refine ⟨?_, ?_, ?_⟩
  · refine ⟨?_, (resetEncoderValue_fields e).1, (resetEncoderValue_fields e).2.1,
      (resetEncoderValue_fields e).2.2.1⟩
    rw [(resetEncoderValue_fields e).2.2.2, Nat.add_comm]
  · have := processMessage_wrapped_of_bounds e2 m (by rw [hhome2]; exact ha) hraw
    rw [hinv2, hhome2, relHomeArg_self] at this
    omega
  · rw [processMessage_revolutions, he2, he1]
    exact (resetEncoderValue_fields (e.processMessage m)).2.2.1

/-- Witness for C7: a fresh non-inverted encoder processing the feedback
message with encoder field 100, then resetting, then processing it again. -/
theorem claim_C7_witness :
    ((((DjiMotorEncoder.init false 4096 0).processMessage
        ⟨0x201, [0, 100, 0, 0, 0, 0, 0, 0]⟩).resetEncoderValue).processMessage
        ⟨0x201, [0, 100, 0, 0, 0, 0, 0, 0]⟩).encoderWrapped = 0 :=
  (claim_C7_reset_rehome_roundtrip (DjiMotorEncoder.init false 4096 0)
    ⟨0x201, [0, 100, 0, 0, 0, 0, 0, 0]⟩ (by decide) (by decide)).2.1

/-- The observable behaviour of one slot of a `FallbackEncoder`: whether the
underlying `EncoderInterface` reports online and the positions it returns.
Position values are modelled as exact rationals in place of `float`. -/
structure EncoderSlot where
  online : Bool
  posUnwrapped : ℚ
  posWrapped : ℚ
deriving DecidableEq, Repr

/-- State of `FallbackEncoder<COUNT>` (`fallback_encoder.hpp`): the slot
array (`nullptr` entries as `none`) and the `seenEncoders` bitmask. -/
structure FallbackEncoder where
  encoders : List (Option EncoderSlot)
  seenEncoders : Nat
deriving DecidableEq, Repr

/-- Bit test `(seen & (1 << i)) != 0` from `seenEncoder`. -/
def seenBit (seen i : Nat) : Bool := decide (seen &&& (1 <<< i) ≠ 0)

/-- Combined null check and `isOnline()` call on a slot pointer
(`encoders[index] != nullptr && encoders[index]->isOnline()`). -/
def slotOnline : Option EncoderSlot → Bool
  | none => false
  | some s => s.online

/-- Unwrapped position read from a slot pointer (only ever read on slots
that passed `validEncoder`, hence non-null). -/
def slotPosUnwrapped : Option EncoderSlot → ℚ
  | none => 0
  | some s => s.posUnwrapped

/-- Wrapped position read from a slot pointer. -/
def slotPosWrapped : Option EncoderSlot → ℚ
  | none => 0
  | some s => s.posWrapped

/-- `FallbackEncoder::validEncoder` over an explicit bitmask: the slot is
marked seen, non-null and online. -/
def validWith (enc : List (Option EncoderSlot)) (seen i : Nat) : Bool :=
  seenBit seen i && slotOnline (enc.getD i none)

/-- Body of the `syncEncoders` loop for one secondary index `i` (only run
when the primary is online): a non-null, online, not-yet-seen secondary gets
its seen bit set; otherwise, a valid secondary with the primary not yet seen
sets the primary's seen bit. -/
def syncStep (enc : List (Option EncoderSlot)) (seen i : Nat) : Nat :=
  if (enc.getD i none).isSome && slotOnline (enc.getD i none) && !seenBit seen i then
    seen ||| (1 <<< i)
  else if validWith enc seen i && !seenBit seen 0 then
    seen ||| 1
  else seen

/-- `FallbackEncoder::syncEncoders` (`fallback_encoder.hpp` lines 139-161):
nothing happens unless the primary is online; then the loop over the
secondaries runs and finally the primary's seen bit is set.  The
`zeroTo` alignment calls present in the source only as comments do not
appear: the slots themselves are never modified. -/
def FallbackEncoder.syncEncoders (fb : FallbackEncoder) : FallbackEncoder :=
  if slotOnline (fb.encoders.getD 0 none) then
    { fb with
      seenEncoders :=
        ((List.range' 1 (fb.encoders.length - 1)).foldl
          (syncStep fb.encoders) fb.seenEncoders) ||| 1 }
  else fb

/-- `FallbackEncoder::validEncoder` (`fallback_encoder.hpp` lines 163-167). -/
def FallbackEncoder.validEncoder (fb : FallbackEncoder) (i : Nat) : Bool :=
  validWith fb.encoders fb.seenEncoders i

/-- `FallbackEncoder::isOnline` (`fallback_encoder.hpp` lines 65-78): sync,
then report whether any slot is valid. -/
def FallbackEncoder.isOnline (fb : FallbackEncoder) : Bool :=
  (List.range fb.syncEncoders.encoders.length).any
    (fun i => fb.syncEncoders.validEncoder i)

/-- `FallbackEncoder::getPositionUnwrapped` (`fallback_encoder.hpp` lines
80-96): sync, accumulate the positions of the valid slots and their count,
and divide. -/
def FallbackEncoder.getPositionUnwrapped (fb : FallbackEncoder) : ℚ :=
  let fb1 := fb.syncEncoders
  let acc :=
    (List.range fb1.encoders.length).foldl
      (fun (acc : ℚ × Nat) i =>
        if fb1.validEncoder i then
          (acc.1 + slotPosUnwrapped (fb1.encoders.getD i none), acc.2 + 1)
        else acc)
      (0, 0)
  acc.1 / (acc.2 : ℚ)

/-- `FallbackEncoder::getPositionWrapped` (`fallback_encoder.hpp` lines
98-114). -/
def FallbackEncoder.getPositionWrapped (fb : FallbackEncoder) : ℚ :=
  let fb1 := fb.syncEncoders
  let acc :=
    (List.range fb1.encoders.length).foldl
      (fun (acc : ℚ × Nat) i =>
        if fb1.validEncoder i then
          (acc.1 + slotPosWrapped (fb1.encoders.getD i none), acc.2 + 1)
        else acc)
      (0, 0)
  acc.1 / (acc.2 : ℚ)

theorem syncEncoders_encoders (fb : FallbackEncoder) :
    fb.syncEncoders.encoders = fb.encoders := by
  unfold FallbackEncoder.syncEncoders
  split <;> rfl

/-- Indices of the slots that are currently valid after synchronization:
the claim-side description of the averaging set. -/
def validIndices (fb : FallbackEncoder) : List Nat :=
  (List.range fb.syncEncoders.encoders.length).filter
    (fun i => fb.syncEncoders.validEncoder i)

example :
    (DjiMotorEncoder.updateEncoderValue
      (DjiMotorEncoder.init false 8000 0) 50).encoderUnwrapped = 8000 + 242 := by
  decide

example :
    ((DjiMotorEncoder.init false 4096 0).processMessage
      ⟨0x201, [0x23, 0x28, 0, 0, 0, 0, 0, 0]⟩).encoderWrapped = 9000 := by
  decide

example :
    (FallbackEncoder.syncEncoders
      ⟨[some ⟨true, 0, 0⟩, some ⟨true, 5, 5⟩], 0⟩).seenEncoders = 3 := by
  decide

example :
    FallbackEncoder.isOnline ⟨[some ⟨false, 0, 0⟩, some ⟨true, 5, 5⟩], 2⟩ = true := by
  decide

/-- Folding the accumulate-if-valid body over a list yields the sum of the
selected values and the count of the selected indices. -/
theorem foldl_filter_sum_count (l : List Nat) (p : Nat → Bool) (f : Nat → ℚ)
    (a : ℚ) (k : Nat) :
    l.foldl (fun acc i => if p i then (acc.1 + f i, acc.2 + 1) else acc) (a, k) =
      (a + ((l.filter p).map f).sum, k + (l.filter p).length) := by
  induction l generalizing a k with
  | nil => simp
  | cons x xs ih =>
    cases hx : p x with
    | true =>
      simp only [List.foldl_cons, hx, if_true, List.filter_cons_of_pos hx,
        List.map_cons, List.sum_cons, List.length_cons, ih, Prod.mk.injEq]
      exact ⟨by ring, by omega⟩
    | false =>
      have hx' : ¬ (p x = true) := by simp [hx]
      simp only [List.foldl_cons, hx, Bool.false_eq_true, if_false,
        List.filter_cons_of_neg hx']
      exact ih a k

/-- C5: after the synchronization pass, `isOnline` returns true iff some
slot is valid (marked aligned, non-null and online); in particular, when
every slot reports offline, `isOnline` returns false. -/
theorem claim_C5_isOnline_iff_valid_slot (fb : FallbackEncoder) :
    (fb.isOnline = true ↔
      ∃ i, i < fb.encoders.length ∧ fb.syncEncoders.validEncoder i = true) ∧
    ((∀ s ∈ fb.encoders, slotOnline s = false) → fb.isOnline = false) := by
  have hlen : fb.syncEncoders.encoders.length = fb.encoders.length := by
    rw [syncEncoders_encoders]
  constructor
  · unfold FallbackEncoder.isOnline
    rw [hlen]
    simp [List.any_eq_true, List.mem_range]
  · intro hoff
    unfold FallbackEncoder.isOnline
    rw [hlen, List.any_eq_false]
    intro i hi
    have hilen : i < fb.encoders.length := List.mem_range.mp hi
    have hmem : fb.encoders.getD i none ∈ fb.encoders := by
      rw [List.getD_eq_getElem fb.encoders none hilen]
      exact List.getElem_mem hilen
    unfold FallbackEncoder.validEncoder validWith
    rw [syncEncoders_encoders, hoff _ hmem]
    simp

/-- Witness for C5: a fused encoder whose two slots are both offline reports
offline. -/
theorem claim_C5_witness :
    FallbackEncoder.isOnline ⟨[some ⟨false, 0, 0⟩, some ⟨false, 5, 5⟩], 3⟩ = false :=
  (claim_C5_isOnline_iff_valid_slot
    ⟨[some ⟨false, 0, 0⟩, some ⟨false, 5, 5⟩], 3⟩).2 (by decide)

/-- The unwrapped accessor computes the sum over the valid indices divided
by their number. -/
theorem getPositionUnwrapped_eq_mean (fb : FallbackEncoder) :
    fb.getPositionUnwrapped =
      ((validIndices fb).map
        (fun i => slotPosUnwrapped (fb.syncEncoders.encoders.getD i none))).sum /
        ((validIndices fb).length : ℚ) := by
  unfold FallbackEncoder.getPositionUnwrapped validIndices
  simp only [foldl_filter_sum_count]
  simp

/-- The wrapped accessor computes the sum over the valid indices divided by
their number. -/
theorem getPositionWrapped_eq_mean (fb : FallbackEncoder) :
    fb.getPositionWrapped =
      ((validIndices fb).map
        (fun i => slotPosWrapped (fb.syncEncoders.encoders.getD i none))).sum /
        ((validIndices fb).length : ℚ) := by
  unfold FallbackEncoder.getPositionWrapped validIndices
  simp only [foldl_filter_sum_count]
  simp

/-- C6: the position accessors return the arithmetic mean of the positions
of the currently valid slots; when `isOnline` holds the set of valid slots
is non-empty, and with zero valid slots the result is the zero convention
of the exact-arithmetic model. -/
theorem claim_C6_position_is_mean_of_valid (fb : FallbackEncoder) :
    (fb.getPositionUnwrapped =
      ((validIndices fb).map
        (fun i => slotPosUnwrapped (fb.syncEncoders.encoders.getD i none))).sum /
        ((validIndices fb).length : ℚ)) ∧
    (fb.getPositionWrapped =
      ((validIndices fb).map
        (fun i => slotPosWrapped (fb.syncEncoders.encoders.getD i none))).sum /
        ((validIndices fb).length : ℚ)) ∧
    (fb.isOnline = true → (validIndices fb).length ≠ 0) ∧
    ((validIndices fb).length = 0 →
      fb.getPositionUnwrapped = 0 ∧ fb.getPositionWrapped = 0) := by
  have hu := getPositionUnwrapped_eq_mean fb
  have hw := getPositionWrapped_eq_mean fb
  refine ⟨hu, hw, ?_, ?_⟩
  · intro hon hlen
    unfold FallbackEncoder.isOnline at hon
    obtain ⟨i, hi, hvalid⟩ := List.any_eq_true.mp hon
    have : i ∈ validIndices fb := by
      unfold validIndices
      exact List.mem_filter.mpr ⟨hi, hvalid⟩
    rw [List.length_eq_zero] at hlen
    rw [hlen] at this
    exact List.not_mem_nil i this
  · intro hlen
    have hnil : validIndices fb = [] := List.length_eq_zero.mp hlen
    constructor
    · rw [hu, hnil]
      simp
    · rw [hw, hnil]
      simp

/-- Witness for C6: with the primary online and aligned at position 3 and
the secondary offline, the fused position is the mean over the single valid
slot, namely 3. -/
theorem claim_C6_witness :
    FallbackEncoder.isOnline ⟨[some ⟨true, 3, 3⟩, some ⟨false, 5, 5⟩], 0⟩ = true ∧
    validIndices ⟨[some ⟨true, 3, 3⟩, some ⟨false, 5, 5⟩], 0⟩ ≠ [] := by
  refine ⟨by decide, ?_⟩
  have h := (claim_C6_position_is_mean_of_valid
    ⟨[some ⟨true, 3, 3⟩, some ⟨false, 5, 5⟩], 0⟩).2.2.1 (by decide)
  intro hnil
  exact h (by rw [hnil]; rfl)

/-- C4: evaluation of the synchronization pass at the failing input.  With
the primary online at position 0 and a not-yet-aligned secondary online at
position 5, `syncEncoders` only sets the two seen bits: no slot state is
modified, so the secondary is never brought into the primary's reference
frame, and the fused position stays the raw average `5/2` instead of the
primary frame's 0.  (The alignment calls appear in the source only as
comments, while `fallback_encoder_tests.cpp` expects `alignWith` to be
invoked.) -/
theorem claim_C4_sync_marks_but_never_realigns :
    (FallbackEncoder.syncEncoders
      ⟨[some ⟨true, 0, 0⟩, some ⟨true, 5, 5⟩], 0⟩).encoders =
      [some ⟨true, 0, 0⟩, some ⟨true, 5, 5⟩] ∧
    (FallbackEncoder.syncEncoders
      ⟨[some ⟨true, 0, 0⟩, some ⟨true, 5, 5⟩], 0⟩).seenEncoders = 3 ∧
    FallbackEncoder.getPositionUnwrapped
      ⟨[some ⟨true, 0, 0⟩, some ⟨true, 5, 5⟩], 0⟩ = 5 / 2 := by
  refine ⟨by decide, by decide, ?_⟩
  have h := getPositionUnwrapped_eq_mean ⟨[some ⟨true, 0, 0⟩, some ⟨true, 5, 5⟩], 0⟩
  have hvi : validIndices ⟨[some ⟨true, 0, 0⟩, some ⟨true, 5, 5⟩], 0⟩ = [0, 1] := by
    decide
  rw [h, hvi]
  have hs : FallbackEncoder.syncEncoders ⟨[some ⟨true, 0, 0⟩, some ⟨true, 5, 5⟩], 0⟩ =
      ⟨[some ⟨true, 0, 0⟩, some ⟨true, 5, 5⟩], 3⟩ := by decide
  rw [hs]
  norm_num [slotPosUnwrapped]

/-- One of the two physical CAN buses. -/
inductive CanBus where
  | bus1
  | bus2
deriving DecidableEq, Repr

/-- Modelled from the spec: the `DJI_MOTOR_TO_NORMALIZED_ID` macro.  Its
defining header is not in the repository snapshot; per the spec and
`dji_motor_ids.hpp`, motor `i` (feedback id `0x200 + i`) occupies slot
`i - 1`, so the normalization subtracts the base id `MOTOR1 = 0x201`
(in `uint32_t` arithmetic, as the call sites store the result). -/
def DJI_MOTOR_TO_NORMALIZED_ID (id : Nat) : Nat := toUInt32n ((id : Int) - 0x201)

/-- Modelled from the spec: the per-bus registry capacity (eight motors per
bus); the defining header is not in the repository snapshot. -/
def DJI_MOTORS_PER_CAN : Nat := 8

/-- State of a `DjiMotor` (`dji_motor.cpp`): CAN identity, inversion,
desired output (`int16_t`), last-reported rpm/torque/temperature, the
disconnect timeout abstracted to its stopped bit, the current-control
flag consulted by the Tx handler (whose declaration is not in the
snapshot; modelled from the spec as a constant property of the motor),
and the internal encoder. -/
structure DjiMotor where
  motorIdentifier : Nat
  motorCanBus : CanBus
  motorInverted : Bool
  desiredOutput : Int
  shaftRPM : Int
  torque : Int
  temperature : Int
  timeoutStopped : Bool
  inCurrentControl : Bool
  internalEncoder : DjiMotorEncoder
deriving DecidableEq, Repr

/-- The `DjiMotor` constructor: zeroes the command and feedback fields,
stops the disconnect timeout and builds the internal encoder. -/
def DjiMotor.init (desMotorIdentifier : Nat) (motorCanBus : CanBus)
    (isInverted : Bool) (encoderWrapped : Nat) (encoderRevolutions : Int)
    (inCurrentControl : Bool) : DjiMotor :=
  { motorIdentifier := desMotorIdentifier
    motorCanBus := motorCanBus
    motorInverted := isInverted
    desiredOutput := 0
    shaftRPM := 0
    torque := 0
    temperature := 0
    timeoutStopped := true
    inCurrentControl := inCurrentControl
    internalEncoder := DjiMotorEncoder.init isInverted encoderWrapped encoderRevolutions }

/-- `DjiMotor::processMessage` (`dji_motor.cpp` lines 74-90): a message
whose identifier is not the motor's own returns immediately; otherwise the
rpm, torque and temperature fields are decoded (sign-inverted when the
motor is inverted), the disconnect timeout restarts, and the message is
forwarded to the internal encoder. -/
def DjiMotor.processMessage (mt : DjiMotor) (m : CanMessage) : DjiMotor :=
  if m.identifier ≠ mt.motorIdentifier then mt
  else
    let rpm0 : Int := toInt16s ((m.byte 2) * 256 + (m.byte 3))
    let rpm : Int := if mt.motorInverted then -rpm0 else rpm0
    let tq0 : Int := toInt16s ((m.byte 4) * 256 + (m.byte 5))
    let tq : Int := if mt.motorInverted then -tq0 else tq0
    let temp : Int := toInt8s (m.byte 6)
    { mt with
      shaftRPM := rpm
      torque := tq
      temperature := temp
      timeoutStopped := false
      internalEncoder := mt.internalEncoder.processMessage m }

/-- `tap::algorithms::limitVal` (`math_user_utils.hpp`): clamp `val` into
`[mn, mx]`, returning `val` unchanged when the bounds are inverted. -/
def limitVal (val mn mx : Int) : Int :=
  if mn > mx then val
  else if val < mn then mn
  else if val > mx then mx
  else val

/-- `DjiMotor::setDesiredOutput` (`dji_motor.cpp` lines 92-97): clamp to the
`int16_t` range, then store, negated when the motor is inverted (the
negation passing through the `int16_t` conversion again). -/
def DjiMotor.setDesiredOutput (mt : DjiMotor) (v : Int) : DjiMotor :=
  let desOutputNotInverted : Int := toInt16s (limitVal v (-32768) 32767)
  { mt with
    desiredOutput :=
      if mt.motorInverted then toInt16s (-desOutputNotInverted)
      else desOutputNotInverted }

/-- `DjiMotor::serializeCanSendData` (`dji_motor.cpp` lines 109-118): write
the desired output big-endian into the 2-byte slot `normalizedIndex mod 4`
of the frame.  `(uint8_t)(d >> 8)` and `(uint8_t)(d & 0xFF)` on an
`int16_t` equal the high and low byte of the two's-complement `uint16_t`
encoding of `d`. -/
def DjiMotor.serializeCanSendData (mt : DjiMotor) (txData : List Nat) : List Nat :=
  let id : Nat := (DJI_MOTOR_TO_NORMALIZED_ID mt.motorIdentifier) % 4
  let u : Nat := toUInt16n mt.desiredOutput
  (txData.set (2 * id) (u / 256)).set (2 * id + 1) (u % 256)

/-- C10: a CAN message whose identifier differs from the motor's own leaves
the whole motor state (rpm, torque, temperature, disconnect timeout and the
internal encoder included) unchanged. -/
theorem claim_C10_foreign_message_no_effect (mt : DjiMotor) (m : CanMessage)
    (h : m.identifier ≠ mt.motorIdentifier) :
    mt.processMessage m = mt := by
  unfold DjiMotor.processMessage
  simp [h]

/-- Witness for C10: a motor listening on 0x202 ignores a feedback message
with identifier 0x201. -/
theorem claim_C10_witness :
    (DjiMotor.init 0x202 CanBus.bus1 false 4096 0 false).processMessage
        ⟨0x201, [1, 2, 3, 4, 5, 6, 7, 0]⟩ =
      DjiMotor.init 0x202 CanBus.bus1 false 4096 0 false :=
  claim_C10_foreign_message_no_effect _ _ (by decide)

/-- The three command-frame groups built per bus per tick ("low" for
normalized indices 0-3, "high" for 4-7 not in current control, and the
6020 current-control frame). -/
inductive MessageGroup where
  | low
  | high
  | current6020
deriving DecidableEq, Repr

/-- The three frames and their valid flags accumulated by
`serializeMotorStoreSendData` for one bus; each frame starts as 8 zero
bytes, as `modm::can::Message` zero-initializes its payload. -/
structure SerializedStore where
  messageLow : List Nat
  messageHigh : List Nat
  message6020 : List Nat
  validLow : Bool
  validHigh : Bool
  valid6020 : Bool
deriving DecidableEq, Repr

/-- The loop body of `DjiMotorTxHandler::serializeMotorStoreSendData`
(`dji_motor_tx_handler.cpp` lines 165-201) for one registry entry: a
registered motor with normalized index at most that of `MOTOR4` writes into
the low frame; otherwise a current-control motor writes into the 6020
frame, and any other motor into the high frame; the touched frame is marked
valid. -/
def serializeStep (acc : SerializedStore) (motor : Option DjiMotor) :
    SerializedStore :=
  match motor with
  | none => acc
  | some mt =>
    if DJI_MOTOR_TO_NORMALIZED_ID mt.motorIdentifier ≤
        DJI_MOTOR_TO_NORMALIZED_ID 0x204 then
      { acc with
        messageLow := mt.serializeCanSendData acc.messageLow
        validLow := true }
    else if mt.inCurrentControl then
      { acc with
        message6020 := mt.serializeCanSendData acc.message6020
        valid6020 := true }
    else
      { acc with
        messageHigh := mt.serializeCanSendData acc.messageHigh
        validHigh := true }

/-- `DjiMotorTxHandler::serializeMotorStoreSendData`: iterate the eight
registry slots of one bus in index order. -/
def serializeMotorStoreSendData (store : List (Option DjiMotor)) :
    SerializedStore :=
  (List.range DJI_MOTORS_PER_CAN).foldl
    (fun acc i => serializeStep acc (store.getD i none))
    { messageLow := List.replicate 8 0
      messageHigh := List.replicate 8 0
      message6020 := List.replicate 8 0
      validLow := false
      validHigh := false
      valid6020 := false }

/-- The frames one bus contributes to the tick: when the driver reports the
bus ready, every frame marked valid is sent, low first, then high, then the
6020 current frame; an unready bus sends nothing. -/
def busSendList (bus : CanBus) (s : SerializedStore) (ready : Bool) :
    List (CanBus × MessageGroup × List Nat) :=
  if ready then
    (if s.validLow then [(bus, MessageGroup.low, s.messageLow)] else []) ++
    (if s.validHigh then [(bus, MessageGroup.high, s.messageHigh)] else []) ++
    (if s.valid6020 then [(bus, MessageGroup.current6020, s.message6020)] else [])
  else []

/-- `DjiMotorTxHandler::encodeAndSendCanData` (`dji_motor_tx_handler.cpp`):
serialize both bus registries and send the valid frames of each bus that is
ready to send; the returned list is the trace of frames handed to the
driver, in order. -/
def DjiMotorTxHandler.encodeAndSendCanData
    (can1MotorStore can2MotorStore : List (Option DjiMotor))
    (ready1 ready2 : Bool) : List (CanBus × MessageGroup × List Nat) :=
  busSendList CanBus.bus1 (serializeMotorStoreSendData can1MotorStore) ready1 ++
    busSendList CanBus.bus2 (serializeMotorStoreSendData can2MotorStore) ready2

/-- C8: with exactly the motors 0x201 (desired output 1000) and 0x203
(desired output -500) registered on bus 1 and both buses ready, the tick
sends exactly one frame: the bus-1 low frame, whose bytes [0:2] are the
big-endian encoding of 1000 (slot 0) and bytes [4:6] the big-endian
two's-complement encoding of -500 (slot 2), all other bytes zero; no frame
is produced for bus 2. -/
theorem claim_C8_concrete_tx_scenario :
    DjiMotorTxHandler.encodeAndSendCanData
        [some ((DjiMotor.init 0x201 CanBus.bus1 false 4096 0 false).setDesiredOutput 1000),
         none,
         some ((DjiMotor.init 0x203 CanBus.bus1 false 4096 0 false).setDesiredOutput (-500)),
         none, none, none, none, none]
        (List.replicate 8 none) true true =
      [(CanBus.bus1, MessageGroup.low, [3, 232, 0, 0, 254, 12, 0, 0])] ∧
    toInt16s ((3 * 256 + 232 : Nat)) = 1000 ∧
    toInt16s ((254 * 256 + 12 : Nat)) = -500 := by
  refine ⟨by decide, by decide, by decide⟩

/-- A CAN receive listener as registered with the dispatch table
(`CanRxListner` in `can_rx_handler.cpp`, source spelling kept): the bus and
identifier it declares, plus a tag standing for the object's identity. -/
structure CanRxListner where
  canBus : CanBus
  canIdentifier : Nat
  tag : Nat
deriving DecidableEq, Repr

/-- Modelled from the spec: the `DJI_MOTOR_NORMALIZED_ID` macro of the 2019
receive handler, whose defining header is not in the repository snapshot;
the normalized index is the signed difference between the CAN identifier and
the fixed base `MOTOR1 = 0x201`. -/
def DJI_MOTOR_NORMALIZED_ID (id : Nat) : Int := (id : Int) - 0x201

/-- Modelled from the spec: the dispatch-array size per bus (eight feedback
ids per bus); the defining header is not in the repository snapshot. -/
def MAX_RECEIVE_UNIQUE_HEADER_CAN1 : Nat := 8

/-- The private `CanRxHandler::attachReceiveHandler` (`can_rx_handler.cpp`
lines 28-40): compute the (int8) normalized id, test whether the slot is
occupied, and `modm_assert` on `!overloaded || (0 <= id < storeSize)`; a
failed assertion halts the process (`none`), otherwise the slot is
overwritten with the new listener.  Indexing is modelled for the in-range
ids the claims quantify over (out-of-range indexing is undefined behaviour
in the source). -/
def CanRxHandler.attachReceiveHandler (l : CanRxListner)
    (messageHandlerStore : List (Option CanRxListner))
    (messageHandlerStoreSize : Int) :
    Option (List (Option CanRxListner)) :=
  let id : Int := toInt8s (DJI_MOTOR_NORMALIZED_ID l.canIdentifier)
  let receiveInterfaceOverloaded : Bool :=
    (messageHandlerStore.getD id.toNat none).isSome
  let receiveAttachSuccess : Bool :=
    !receiveInterfaceOverloaded ||
      decide (0 ≤ id ∧ id < messageHandlerStoreSize)
  if receiveAttachSuccess then
    some (messageHandlerStore.set id.toNat (some l))
  else none

/-- `CanRxHandler::processReceivedCanData` (`can_rx_handler.cpp` lines
60-77): nothing happens unless the driver reported a message; an in-range
normalized id with a registered listener delivers the message to that
listener (the returned list is the trace of `processMessage` calls); any
other message is dropped. -/
def CanRxHandler.processReceivedCanData (rxMessage : CanMessage)
    (messageHandlerStore : List (Option CanRxListner))
    (messageAvailable : Bool) : List (Nat × CanMessage) :=
  if !messageAvailable then []
  else
    let handlerStoreId : Int := DJI_MOTOR_NORMALIZED_ID rxMessage.identifier
    if 0 ≤ handlerStoreId ∧ handlerStoreId < (MAX_RECEIVE_UNIQUE_HEADER_CAN1 : Int) then
      match messageHandlerStore.getD handlerStoreId.toNat none with
      | some l => [(l.tag, rxMessage)]
      | none => []
    else []

/-- `CanRxHandler::pollCanData` (`can_rx_handler.cpp` lines 42-58) against a
driver modelled as one pending-message queue per bus (`isMessageAvailable`
is "queue non-empty", `getMessage` pops the head): bus 1 is handled first,
then bus 2; the result is the remaining queues and the trace of deliveries. -/
def CanRxHandler.pollCanData
    (messageHandlerStoreCan1 messageHandlerStoreCan2 : List (Option CanRxListner))
    (can1Queue can2Queue : List CanMessage) :
    List CanMessage × List CanMessage × List (Nat × CanMessage) :=
  let step1 : List CanMessage × List (Nat × CanMessage) :=
    match can1Queue with
    | [] => ([], [])
    | m :: rest =>
      (rest, CanRxHandler.processReceivedCanData m messageHandlerStoreCan1 true)
  let step2 : List CanMessage × List (Nat × CanMessage) :=
    match can2Queue with
    | [] => ([], [])
    | m :: rest =>
      (rest, CanRxHandler.processReceivedCanData m messageHandlerStoreCan2 true)
  (step1.1, step2.1, step1.2 ++ step2.2)

/-- C1: evaluation of attach at the failing input.  Slot 1 of bus 1 is
already occupied by listener tag 1 for identifier 0x202; attaching a second
listener for 0x202 (normalized index 1, in range) does not fail the
assertion: the call returns normally and silently overwrites the slot with
the new listener, instead of halting as the spec requires. -/
theorem claim_C1_inrange_overload_is_not_fatal :
    CanRxHandler.attachReceiveHandler ⟨CanBus.bus1, 0x202, 2⟩
        [none, some ⟨CanBus.bus1, 0x202, 1⟩, none, none, none, none, none, none]
        (MAX_RECEIVE_UNIQUE_HEADER_CAN1 : Int) =
      some [none, some ⟨CanBus.bus1, 0x202, 2⟩, none, none, none, none, none, none] := by
  decide

/-- C9: one `pollCanData` call pops at most one message per bus (exactly one
when the driver has one pending), handles bus 1 before bus 2, delivers a
fetched message to the listener registered at its normalized index exactly
once, and silently drops (empty delivery trace, queues unchanged apart from
the pop) any message whose normalized index is out of range or whose slot is
empty. -/
theorem claim_C9_poll_single_fetch_dispatch
    (store1 store2 : List (Option CanRxListner)) (q1 q2 : List CanMessage) :
    ((CanRxHandler.pollCanData store1 store2 q1 q2).1 = q1.drop 1 ∧
     (CanRxHandler.pollCanData store1 store2 q1 q2).2.1 = q2.drop 1 ∧
     (CanRxHandler.pollCanData store1 store2 q1 q2).2.2 =
       (match q1 with
        | [] => []
        | m :: _ => CanRxHandler.processReceivedCanData m store1 true) ++
       (match q2 with
        | [] => []
        | m :: _ => CanRxHandler.processReceivedCanData m store2 true)) ∧
    (∀ (m : CanMessage) (store : List (Option CanRxListner)) (l : CanRxListner),
      0 ≤ DJI_MOTOR_NORMALIZED_ID m.identifier →
      DJI_MOTOR_NORMALIZED_ID m.identifier < (MAX_RECEIVE_UNIQUE_HEADER_CAN1 : Int) →
      store.getD (DJI_MOTOR_NORMALIZED_ID m.identifier).toNat none = some l →
      CanRxHandler.processReceivedCanData m store true = [(l.tag, m)]) ∧
    (∀ (m : CanMessage) (store : List (Option CanRxListner)),
      (DJI_MOTOR_NORMALIZED_ID m.identifier < 0 ∨
        (MAX_RECEIVE_UNIQUE_HEADER_CAN1 : Int) ≤ DJI_MOTOR_NORMALIZED_ID m.identifier ∨
        store.getD (DJI_MOTOR_NORMALIZED_ID m.identifier).toNat none = none) →
      CanRxHandler.processReceivedCanData m store true = []) := by
  refine ⟨⟨?_, ?_, ?_⟩, ?_, ?_⟩
  · cases q1 <;> cases q2 <;> rfl
  · cases q1 <;> cases q2 <;> rfl
  · cases q1 <;> cases q2 <;> rfl
  · intro m store l h1 h2 hl
    unfold CanRxHandler.processReceivedCanData
    rw [if_neg (by simp), if_pos ⟨h1, h2⟩, hl]
  · intro m store h
    unfold CanRxHandler.processReceivedCanData
    rw [if_neg (by simp)]
    rcases h with h | h | h
    · rw [if_neg (by omega)]
    · rw [if_neg (by omega)]
    · by_cases hc : (0 ≤ DJI_MOTOR_NORMALIZED_ID m.identifier ∧
          DJI_MOTOR_NORMALIZED_ID m.identifier < (MAX_RECEIVE_UNIQUE_HEADER_CAN1 : Int))
      · rw [if_pos hc, h]
      · rw [if_neg hc]

/-- Witness for C9: a listener tagged 7 registered for 0x202 on bus 1
receives the pending 0x202 message exactly once, with bus 2 idle. -/
theorem claim_C9_witness :
    (CanRxHandler.pollCanData
      [none, some ⟨CanBus.bus1, 0x202, 7⟩, none, none, none, none, none, none]
      (List.replicate 8 none)
      [⟨0x202, [1, 2, 3, 4, 5, 6, 7, 0]⟩] []).2.2 =
      [(7, ⟨0x202, [1, 2, 3, 4, 5, 6, 7, 0]⟩)] := by
  have h := claim_C9_poll_single_fetch_dispatch
    [none, some ⟨CanBus.bus1, 0x202, 7⟩, none, none, none, none, none, none]
    (List.replicate 8 none)
    [⟨0x202, [1, 2, 3, 4, 5, 6, 7, 0]⟩] []
  rw [h.1.2.2]
  show CanRxHandler.processReceivedCanData ⟨0x202, [1, 2, 3, 4, 5, 6, 7, 0]⟩
      [none, some ⟨CanBus.bus1, 0x202, 7⟩, none, none, none, none, none, none]
      true ++ [] =
    [(7, ⟨0x202, [1, 2, 3, 4, 5, 6, 7, 0]⟩)]
  rw [h.2.1 ⟨0x202, [1, 2, 3, 4, 5, 6, 7, 0]⟩
    [none, some ⟨CanBus.bus1, 0x202, 7⟩, none, none, none, none, none, none]
    ⟨CanBus.bus1, 0x202, 7⟩ (by decide) (by decide) (by decide)]
  rfl
